import Mathlib

/-!
Shallow embedding of the `postfix` sliding-window rate limiter
(`ratelimit.go`): per-sender `RatelimitToken` (minute-bucketed message
counts), `RatelimitTokenMap` (registry keyed by sender), and
`RatelimitSlidingWindow` (the window controller with whitelist and
per-domain overrides).

Modelling conventions:
- Go timestamps (`time.Time`) are `Int` nanoseconds since the zero time;
  `Time.Truncate(time.Minute)` is flooring to a multiple of `Minute`,
  `Before` is `<`, `Add` is `+`.  Go `time.Duration` is `Int` nanoseconds.
- Go maps are association lists; `m[k] = v` is `aupdate`, the comma-ok
  read is `alookup`.  Go map iteration with `delete` of the visited key
  (as in `Prune`) removes exactly the matching entries, so it is modelled
  by `List.filter`.
- Go machine integers are unbounded `Int` (no claim involves overflow).
- The `*log.Logger` fields are `Option Unit`: `some ()` is a set logger,
  `none` is the nil pointer.  Calling `logger.Println` on a nil
  `*log.Logger` dereferences nil and panics, so every operation that logs
  is `Option`-valued and a `logger.Println` call site is a bind on the
  logger: the result `none` models the Go run aborting with a panic
  (the state at the moment of the panic is not modelled, only that the
  call does not return).
-/

namespace Postfix

/-- First-match association-list lookup: Go's comma-ok map read `v, ok := m[k]`. -/
def alookup {α β : Type} [DecidableEq α] (k : α) : List (α × β) → Option β
  | [] => none
  | (a, b) :: rest => if a = k then some b else alookup k rest

/-- Association-list store: Go's map assignment `m[k] = v` (replaces the
first matching entry, appends when the key is absent). -/
def aupdate {α β : Type} [DecidableEq α] (k : α) (v : β) : List (α × β) → List (α × β)
  | [] => [(k, v)]
  | (a, b) :: rest => if a = k then (k, v) :: rest else (a, b) :: aupdate k v rest

/-- Go `time.Second` in nanoseconds. -/
def Second : Int := 1000000000

/-- Go `time.Minute` in nanoseconds. -/
def Minute : Int := 60000000000

/-- Go `ts.Truncate(time.Minute)`: floor `ts` to a multiple of a minute. -/
def truncMinute (ts : Int) : Int := (ts.fdiv Minute) * Minute

/-- Modelled from the spec: the override-map collaborator (`MemoryMap`, a
file-backed lookup table whose source is not part of the core) exposes
`get(key) → (value, found)`, a synchronous read-only lookup.  We model it
as a finite association list; `Get` returns `some value` when the key is
found and `none` for the Go error case. -/
structure MemoryMap where
  entries : List (String × String)
deriving DecidableEq

/-- Modelled from the spec: `MemoryMap.Get` returns the stored value for
the key, or an error (here `none`) when the key is absent. -/
def MemoryMap.Get (m : MemoryMap) (k : String) : Option String :=
  alookup k m.entries

/-- Go `strconv.Atoi`: an optional single sign followed by one or more
decimal digits; anything else is an error (`none`).  Overflow is not
modelled (values are unbounded `Int`). -/
def Atoi (s : String) : Option Int :=
  let withSign : Int × List Char :=
    match s.toList with
    | '+' :: rest => (1, rest)
    | '-' :: rest => (-1, rest)
    | l => (1, l)
  if withSign.2.isEmpty then none
  else if withSign.2.all Char.isDigit then
    some (withSign.1 * withSign.2.foldl (fun acc c => acc * 10 + (c.toNat - '0'.toNat)) 0)
  else none

/-- The `RatelimitToken` holds data for one sender: `tsd` maps a
minute-truncated timestamp to the number of recipients recorded in that
minute, `count` is the running total, `sliceCount` the number of buckets. -/
structure RatelimitToken where
  key : String
  tsd : List (Int × Int)
  count : Int
  sliceCount : Int
  logger : Option Unit
deriving DecidableEq

/-- The `RatelimitTokenMap` holds all the senders' tokens. -/
structure RatelimitTokenMap where
  tokens : List (String × RatelimitToken)
  logger : Option Unit
deriving DecidableEq

/-- The `RatelimitSlidingWindow` holds everything needed to decide whether to
allow or defer a message.  `tokens` is the registry the controller's
pointer refers to. -/
structure RatelimitSlidingWindow where
  defaultLimit : Int
  deferMessage : String
  interval : Int
  whiteList : MemoryMap
  domainList : MemoryMap
  tokens : RatelimitTokenMap
  logger : Option Unit
deriving DecidableEq

/-- The `NewRatelimitTokenMap` creates an empty registry (no logger set). -/
def NewRatelimitTokenMap : RatelimitTokenMap :=
  { tokens := [], logger := none }

/-- The `NewRatelimitToken` creates a fresh token for key `k` (no logger set). -/
def NewRatelimitToken (k : String) : RatelimitToken :=
  { key := k, tsd := [], count := 0, sliceCount := 0, logger := none }

/-- The `NewRatelimitSlidingWindow` creates a controller with
`defaultLimit = 120`; every other field keeps its Go zero value
(`deferMessage = ""`, `interval = 0`, nil logger). -/
def NewRatelimitSlidingWindow (w d : MemoryMap) (t : RatelimitTokenMap) :
    RatelimitSlidingWindow :=
  { defaultLimit := 120, deferMessage := "", interval := 0,
    whiteList := w, domainList := d, tokens := t, logger := none }

/-- The `SetDefaultLimit` sets the rate limit used for non-overridden domains. -/
def RatelimitSlidingWindow.SetDefaultLimit (rsw : RatelimitSlidingWindow) (l : Int) :
    RatelimitSlidingWindow :=
  { rsw with defaultLimit := l }

/-- The `SetLogger` on the controller. -/
def RatelimitSlidingWindow.SetLogger (rsw : RatelimitSlidingWindow) (l : Option Unit) :
    RatelimitSlidingWindow :=
  { rsw with logger := l }

/-- The `SetLogger` on the registry. -/
def RatelimitTokenMap.SetLogger (rlm : RatelimitTokenMap) (l : Option Unit) :
    RatelimitTokenMap :=
  { rlm with logger := l }

/-- The `SetLogger` on a token. -/
def RatelimitToken.SetLogger (rlt : RatelimitToken) (l : Option Unit) :
    RatelimitToken :=
  { rlt with logger := l }

/-- The `SetDeferMessage` sets the text appended to the defer response. -/
def RatelimitSlidingWindow.SetDeferMessage (rsw : RatelimitSlidingWindow) (m : String) :
    RatelimitSlidingWindow :=
  { rsw with deferMessage := m }

/-- The `SetWhiteList` replaces the whitelist map. -/
def RatelimitSlidingWindow.SetWhiteList (rsw : RatelimitSlidingWindow) (wl : MemoryMap) :
    RatelimitSlidingWindow :=
  { rsw with whiteList := wl }

/-- The `SetDomainList` replaces the domain-override map. -/
def RatelimitSlidingWindow.SetDomainList (rsw : RatelimitSlidingWindow) (d : MemoryMap) :
    RatelimitSlidingWindow :=
  { rsw with domainList := d }

/-- Go `time.ParseDuration` restricted to the shapes `SetInterval` feeds
it: the configured interval string with `"s"` appended, i.e. an
optionally signed whole number of seconds.  Fractional or multi-unit
duration grammars, which the configuration format does not use, are not
modelled; no theorem below depends on which strings parse, only on the
parse result when it exists. -/
def ParseDuration (s : String) : Option Int :=
  match s.toList.reverse with
  | 's' :: rest => (Atoi (String.mk rest.reverse)).map (· * Second)
  | _ => none

/-- The `SetInterval` parses `i + "s"` as a duration; on failure it logs
(panicking on a nil logger) and keeps the zero duration.  The stored
interval is the parsed duration negated. -/
def RatelimitSlidingWindow.SetInterval (rsw : RatelimitSlidingWindow) (i : String) :
    Option RatelimitSlidingWindow :=
  (match ParseDuration (i ++ "s") with
   | some d => some d
   | none => rsw.logger.bind fun _ => some 0).bind fun d =>
  some { rsw with interval := d * -1 }

/-- The `checkWhiteList` is true when the whitelist lookup does not error. -/
def RatelimitSlidingWindow.checkWhiteList (rsw : RatelimitSlidingWindow) (k : String) : Bool :=
  (rsw.whiteList.Get k).isSome

/-- The `checkDomain` is true when the domain-list lookup does not error. -/
def RatelimitSlidingWindow.checkDomain (rsw : RatelimitSlidingWindow) (k : String) : Bool :=
  (rsw.domainList.Get k).isSome

/-- The `getDomainLimit` reads the domain's limit string and converts it with
`Atoi`; both the lookup-error and the conversion-error paths log (a bind
on the logger) and return 0. -/
def RatelimitSlidingWindow.getDomainLimit (rsw : RatelimitSlidingWindow) (dom : String) :
    Option Int :=
  match rsw.domainList.Get dom with
  | none => rsw.logger.bind fun _ => some 0
  | some d =>
    match Atoi d with
    | none => rsw.logger.bind fun _ => some 0
    | some val => some val

/-- Go `strings.Split` with a one-character separator, on the character
list of the string: cut at every occurrence of `sep`, keeping empty
fields, so the result always has (number of separators + 1) fields and
splitting the empty string gives `[[]]`. -/
def splitList (sep : Char) : List Char → List (List Char)
  | [] => [[]]
  | c :: rest =>
    let r := splitList sep rest
    if c = sep then [] :: r
    else
      match r with
      | [] => [[c]]
      | h :: t => (c :: h) :: t

/-- The `domain` computed at the top of `RateLimit`: `strings.Split` on
`"@"`, then element 1 when there are at least two elements, else `""`. -/
def domainOf (sender : String) : String :=
  let elems := (splitList '@' sender.toList).map String.mk
  if 1 < elems.length then elems.getD 1 "" else ""

/-- The effective message limit of `RateLimit`: `defaultLimit`, replaced
by `getDomainLimit` when the domain is present in the domain list. -/
def RatelimitSlidingWindow.effectiveLimit (rsw : RatelimitSlidingWindow) (domain : String) :
    Option Int :=
  if rsw.checkDomain domain then rsw.getDomainLimit domain else some rsw.defaultLimit

/-- The `Key` returns the key of a token. -/
def RatelimitToken.Key (rlt : RatelimitToken) : String := rlt.key

/-- The `Count` returns the running total of a token. -/
def RatelimitToken.Count (rlt : RatelimitToken) : Int := rlt.count

/-- The `RecordMessage` truncates the timestamp to its minute, logs, and adds
`recips` to that minute's bucket (creating it if absent) and to `count`. -/
def RatelimitToken.RecordMessage (rlt : RatelimitToken) (ts : Int) (recips : Int) :
    Option RatelimitToken :=
  let keytime := truncMinute ts
  rlt.logger.bind fun _ =>
  match alookup keytime rlt.tsd with
  | some val =>
    some { rlt with count := rlt.count + recips, tsd := aupdate keytime (val + recips) rlt.tsd }
  | none =>
    some { rlt with count := rlt.count + recips, sliceCount := rlt.sliceCount + 1,
                    tsd := aupdate keytime recips rlt.tsd }

/-- The `Prune` removes every bucket whose key is strictly before `lim`,
subtracting each removed value from `count` and decrementing
`sliceCount`; each removal logs, so removals with a nil logger panic. -/
def RatelimitToken.Prune (rlt : RatelimitToken) (lim : Int) : Option RatelimitToken :=
  let removed := rlt.tsd.filter fun b => decide (b.1 < lim)
  if removed.isEmpty then some rlt
  else
    rlt.logger.bind fun _ =>
    some { rlt with
      tsd := rlt.tsd.filter fun b => ! decide (b.1 < lim),
      count := rlt.count - (removed.map (fun b => b.2)).sum,
      sliceCount := rlt.sliceCount - removed.length }

/-- The `AddToken` stores a token in the registry under its own key
(overwriting any existing entry). -/
def RatelimitTokenMap.AddToken (rlm : RatelimitTokenMap) (t : RatelimitToken) :
    RatelimitTokenMap :=
  { rlm with tokens := aupdate t.Key t rlm.tokens }

/-- The `Token` returns the registered token for `k`, or creates a fresh one,
gives it the registry's logger, registers it, and returns it. -/
def RatelimitTokenMap.Token (rlm : RatelimitTokenMap) (k : String) :
    RatelimitToken × RatelimitTokenMap :=
  match alookup k rlm.tokens with
  | some t => (t, rlm)
  | none =>
    let t := (NewRatelimitToken k).SetLogger rlm.logger
    (t, { rlm with tokens := aupdate k t rlm.tokens })

/-- The `RateLimit` decides whether `sender` may send to `recips` recipients
at time `now`, returning the postfix policy action string and the updated
registry (the structure the controller's `tokens` pointer refers to).
Every `logger.Println` site is a bind on the believed-set logger, so a
nil-logger path yields `none` (the Go code panics there). -/
def RatelimitSlidingWindow.RateLimit (rsw : RatelimitSlidingWindow) (now : Int)
    (sender : String) (recips : Int) : Option (String × RatelimitTokenMap) :=
  let domain := domainOf sender
  (if recips = 0 then rsw.logger.bind fun _ => some 1 else some recips).bind fun recips =>
  if rsw.checkWhiteList sender then
    rsw.logger.bind fun _ => some ("action=dunno\n\n", rsw.tokens)
  else if rsw.checkWhiteList domain then
    rsw.logger.bind fun _ => some ("action=dunno\n\n", rsw.tokens)
  else
    (rsw.effectiveLimit domain).bind fun messagelimit =>
    let tt := rsw.tokens.Token sender
    let limit := now + rsw.interval
    (tt.1.Prune limit).bind fun token =>
    let tokens : RatelimitTokenMap := { tt.2 with tokens := aupdate sender token tt.2.tokens }
    let tcount := token.Count + recips
    if messagelimit < tcount then
      rsw.logger.bind fun _ =>
        some ("action=defer_if_permit " ++ rsw.deferMessage ++ "\n\n", tokens)
    else
      (token.RecordMessage now recips).bind fun token2 =>
      let tokens2 : RatelimitTokenMap := { tokens with tokens := aupdate sender token2 tokens.tokens }
      rsw.logger.bind fun _ => some ("action=dunno\n\n", tokens2)

/-! ### Derived definitions used by the specification statements -/

/-- Total of the values of a bucket list (the quantity `count` tracks). -/
def sumVals (l : List (Int × Int)) : Int := (l.map fun b => b.2).sum

/-- Total of the values of the buckets whose key satisfies `p`. -/
def sumFilter (p : Int → Bool) (l : List (Int × Int)) : Int :=
  ((l.filter fun b => p b.1).map fun b => b.2).sum

/-- Spec apparatus: run a finite sequence of `RecordMessage(ts, recips)`
calls (given as `(timestamp, recipientCount)` pairs) on a token. -/
def recordAll (t : RatelimitToken) (msgs : List (Int × Int)) : Option RatelimitToken :=
  match msgs with
  | [] => some t
  | m :: rest => (t.RecordMessage m.1 m.2).bind fun t' => recordAll t' rest

/-- The data-model invariant: `count` equals the sum of all bucket values. -/
def TokenInv (t : RatelimitToken) : Prop := t.count = sumVals t.tsd

/-- Join fields back with `'@'` between them (inverse of `splitList '@'`). -/
def joinAt : List (List Char) → List Char
  | [] => []
  | [x] => x
  | x :: xs => x ++ '@' :: joinAt xs

/-- Written from the claimed specification, for comparison with
`domainOf`: "the entire substring after the first `@` in the sender"
(empty when there is no `@`). -/
def specDomain (sender : String) : String :=
  match splitList '@' sender.toList with
  | [] => ""
  | [_] => ""
  | _ :: rest => String.mk (joinAt rest)

/-- Written from the amended claim, for comparison with `domainOf`: the
second field of the `@`-split, i.e. the substring after the first `@` and
before the second `@` when one exists (empty when there is no `@`). -/
def amendedDomain (sender : String) : String :=
  match splitList '@' sender.toList with
  | _ :: d :: _ => String.mk d
  | _ => ""

/-! ### Concrete states used by the witnesses -/

/-- An empty override map. -/
def mmEmpty : MemoryMap := ⟨[]⟩

/-- An empty registry whose logger has been set. -/
def tmLogged : RatelimitTokenMap := NewRatelimitTokenMap.SetLogger (some ())

/-- A controller built by the constructor (`defaultLimit = 120`), its
logger set and its interval configured to 60 seconds. -/
def rswBase : RatelimitSlidingWindow :=
  match ((NewRatelimitSlidingWindow mmEmpty mmEmpty tmLogged).SetLogger (some ())).SetInterval "60" with
  | some r => r
  | none => (NewRatelimitSlidingWindow mmEmpty mmEmpty tmLogged).SetLogger (some ())

/-- The token of `a@x.com` after one accepted 50-recipient message at time 0. -/
def tokA50 : RatelimitToken :=
  { key := "a@x.com", tsd := [(0, 50)], count := 50, sliceCount := 1, logger := some () }

/-- The registry holding exactly `tokA50`. -/
def tmA50 : RatelimitTokenMap := { tokens := [("a@x.com", tokA50)], logger := some () }

/-- A fresh token for `s@d.com` with its logger set. -/
def tokS0 : RatelimitToken :=
  { key := "s@d.com", tsd := [], count := 0, sliceCount := 0, logger := some () }

/-- The token of `s@d.com` after one accepted zero-recipient message at time 0. -/
def tokS1 : RatelimitToken :=
  { key := "s@d.com", tsd := [(0, 1)], count := 1, sliceCount := 1, logger := some () }

/-- The registry holding exactly `tokS1`. -/
def tmS1 : RatelimitTokenMap := { tokens := [("s@d.com", tokS1)], logger := some () }

/-- A fresh token for `n@d.com` with its logger set. -/
def tokN0 : RatelimitToken :=
  { key := "n@d.com", tsd := [], count := 0, sliceCount := 0, logger := some () }

/-- The registry holding exactly `tokN0`. -/
def tmN0 : RatelimitTokenMap := { tokens := [("n@d.com", tokN0)], logger := some () }

/-- The token of `n@d.com` after an accepted message with -5 recipients at time 0. -/
def tokN5 : RatelimitToken :=
  { key := "n@d.com", tsd := [(0, -5)], count := -5, sliceCount := 1, logger := some () }

/-- The registry holding exactly `tokN5`. -/
def tmN5 : RatelimitTokenMap := { tokens := [("n@d.com", tokN5)], logger := some () }

/-- A fresh token for `u@biz.com` with its logger set. -/
def tokBiz0 : RatelimitToken :=
  { key := "u@biz.com", tsd := [], count := 0, sliceCount := 0, logger := some () }

/-- The registry holding exactly `tokBiz0`. -/
def tmBiz : RatelimitTokenMap := { tokens := [("u@biz.com", tokBiz0)], logger := some () }

/-- The `rswBase` with a domain override mapping `biz.com` to the
unparseable limit string `"x5"`. -/
def rswBiz : RatelimitSlidingWindow := rswBase.SetDomainList ⟨[("biz.com", "x5")]⟩

/-- The `rswBase` with `a@x.com` whitelisted. -/
def rswWL : RatelimitSlidingWindow := rswBase.SetWhiteList ⟨[("a@x.com", "1")]⟩

/-- The `rswBase` with the domain `x.com` whitelisted. -/
def rswWLD : RatelimitSlidingWindow := rswBase.SetWhiteList ⟨[("x.com", "1")]⟩

/-- A controller whose whitelist holds `b@c` (what the claimed
domain-splitting rule would extract from `a@b@c`) and whose default limit
is 0, so any non-whitelisted request is deferred. -/
def rswC4 : RatelimitSlidingWindow :=
  (rswBase.SetWhiteList ⟨[("b@c", "1")]⟩).SetDefaultLimit 0

/-! ### Association-list and sum lemmas -/

theorem sumFilter_nil (p : Int → Bool) : sumFilter p [] = 0 := rfl

theorem sumFilter_cons (p : Int → Bool) (a b : Int) (l : List (Int × Int)) :
    sumFilter p ((a, b) :: l) = (if p a then b else 0) + sumFilter p l := by
  by_cases h : p a <;> simp [sumFilter, List.filter_cons, h]

theorem sumVals_cons (a b : Int) (l : List (Int × Int)) :
    sumVals ((a, b) :: l) = b + sumVals l := by
  simp [sumVals]

theorem sumFilter_add_not (p : Int → Bool) (l : List (Int × Int)) :
    sumFilter p l + sumFilter (fun a => ! p a) l = sumVals l := by
  induction l with
  | nil => rfl
  | cons hd tl ih =>
    obtain ⟨a, b⟩ := hd
    rw [sumFilter_cons, sumFilter_cons, sumVals_cons]
    by_cases h : p a <;> simp [h] <;> omega

theorem alookup_mem {β : Type} (k : String) (b : β) (l : List (String × β))
    (h : alookup k l = some b) : (k, b) ∈ l := by
  induction l with
  | nil => simp [alookup] at h
  | cons hd tl ih =>
    obtain ⟨a, v⟩ := hd
    by_cases ha : a = k
    · subst ha
      simp [alookup] at h
      simp [h]
    · simp [alookup, ha] at h
      exact List.mem_cons_of_mem _ (ih h)

theorem alookup_aupdate_self {α β : Type} [DecidableEq α] (k : α) (v : β)
    (l : List (α × β)) : alookup k (aupdate k v l) = some v := by
  induction l with
  | nil => simp [alookup, aupdate]
  | cons hd tl ih =>
    obtain ⟨a, b⟩ := hd
    by_cases ha : a = k
    · subst ha
      simp [alookup, aupdate]
    · simp [alookup, aupdate, ha, ih]

theorem aupdate_aupdate {α β : Type} [DecidableEq α] (k : α) (v1 v2 : β)
    (l : List (α × β)) : aupdate k v2 (aupdate k v1 l) = aupdate k v2 l := by
  induction l with
  | nil => simp [aupdate]
  | cons hd tl ih =>
    obtain ⟨a, b⟩ := hd
    by_cases ha : a = k
    · subst ha
      simp [aupdate]
    · simp [aupdate, ha, ih]

theorem sumFilter_aupdate_found (p : Int → Bool) (k val r : Int) (l : List (Int × Int))
    (h : alookup k l = some val) :
    sumFilter p (aupdate k (val + r) l) = sumFilter p l + (if p k then r else 0) := by
  induction l with
  | nil => simp [alookup] at h
  | cons hd tl ih =>
    obtain ⟨a, b⟩ := hd
    by_cases ha : a = k
    · subst ha
      have hb : b = val := by simpa [alookup] using h
      subst hb
      have e1 : aupdate a (b + r) ((a, b) :: tl) = (a, b + r) :: tl := by
        simp [aupdate]
      rw [e1, sumFilter_cons, sumFilter_cons]
      by_cases hp : p a <;> simp [hp] <;> omega
    · simp only [alookup, if_neg ha] at h
      have e1 : aupdate k (val + r) ((a, b) :: tl) = (a, b) :: aupdate k (val + r) tl := by
        simp [aupdate, ha]
      rw [e1, sumFilter_cons, sumFilter_cons, ih h]
      omega

theorem sumFilter_aupdate_none (p : Int → Bool) (k r : Int) (l : List (Int × Int))
    (h : alookup k l = none) :
    sumFilter p (aupdate k r l) = sumFilter p l + (if p k then r else 0) := by
  induction l with
  | nil => simp [aupdate, sumFilter_cons, sumFilter_nil]
  | cons hd tl ih =>
    obtain ⟨a, b⟩ := hd
    by_cases ha : a = k
    · subst ha
      simp [alookup] at h
    · simp only [alookup, if_neg ha] at h
      simp only [aupdate, if_neg ha, sumFilter_cons, ih h]
      omega

/-! ### Characterizations of the token operations -/

theorem RecordMessage_spec (rlt t' : RatelimitToken) (ts r : Int)
    (h : rlt.RecordMessage ts r = some t') :
    t'.key = rlt.key ∧ t'.logger = rlt.logger ∧ t'.count = rlt.count + r ∧
    ∀ p : Int → Bool,
      sumFilter p t'.tsd = sumFilter p rlt.tsd + (if p (truncMinute ts) then r else 0) := by
  cases hl : rlt.logger with
  | none =>
    simp only [RatelimitToken.RecordMessage, hl, Option.none_bind] at h
    exact absurd h (by simp)
  | some u =>
    obtain rfl : u = () := rfl
    cases hlk : alookup (truncMinute ts) rlt.tsd with
    | some val =>
      simp only [RatelimitToken.RecordMessage, hl, hlk, Option.some_bind,
        Option.some.injEq] at h
      subst h
      refine ⟨rfl, rfl, rfl, fun p => ?_⟩
      exact sumFilter_aupdate_found p _ val r rlt.tsd hlk
    | none =>
      simp only [RatelimitToken.RecordMessage, hl, hlk, Option.some_bind,
        Option.some.injEq] at h
      subst h
      refine ⟨rfl, rfl, rfl, fun p => ?_⟩
      exact sumFilter_aupdate_none p _ r rlt.tsd hlk

theorem RecordMessage_some (rlt : RatelimitToken) (ts r : Int)
    (h : rlt.logger = some ()) : ∃ t', rlt.RecordMessage ts r = some t' := by
  rcases hx : rlt.RecordMessage ts r with _ | t'
  · simp only [RatelimitToken.RecordMessage, h, Option.some_bind] at hx
    cases hlk : alookup (truncMinute ts) rlt.tsd <;> rw [hlk] at hx <;> simp at hx
  · exact ⟨t', rfl⟩

theorem Prune_spec (rlt t' : RatelimitToken) (lim : Int)
    (h : rlt.Prune lim = some t') :
    t'.key = rlt.key ∧ t'.logger = rlt.logger ∧
    t'.tsd = rlt.tsd.filter (fun b => ! decide (b.1 < lim)) ∧
    t'.count = rlt.count - sumFilter (fun a => decide (a < lim)) rlt.tsd := by
  unfold RatelimitToken.Prune at h
  by_cases he : (rlt.tsd.filter fun b => decide (b.1 < lim)).isEmpty
  · rw [if_pos he] at h
    obtain rfl : rlt = t' := by injection h
    have hnil : rlt.tsd.filter (fun b => decide (b.1 < lim)) = [] :=
      List.isEmpty_iff.mp he
    have hall : ∀ b ∈ rlt.tsd, ¬ (decide (b.1 < lim) = true) := by
      intro b hb
      exact (List.filter_eq_nil_iff.mp hnil) b hb
    refine ⟨rfl, rfl, ?_, ?_⟩
    · rw [List.filter_eq_self.mpr]
      intro b hb
      simp only [Bool.not_eq_true']
      exact Bool.not_eq_true _ |>.mp (hall b hb)
    · have : sumFilter (fun a => decide (a < lim)) rlt.tsd = 0 := by
        unfold sumFilter
        rw [hnil]
        rfl
      omega
  · rw [if_neg he] at h
    cases hl : rlt.logger with
    | none =>
      rw [hl, Option.none_bind] at h
      exact absurd h (by simp)
    | some u =>
      rw [hl, Option.some_bind] at h
      obtain rfl := Option.some.inj h
      exact ⟨rfl, rfl, rfl, rfl⟩

theorem Prune_some (rlt : RatelimitToken) (lim : Int)
    (h : rlt.logger = some ()) : ∃ t', rlt.Prune lim = some t' := by
  unfold RatelimitToken.Prune
  by_cases he : (rlt.tsd.filter fun b => decide (b.1 < lim)).isEmpty
  · rw [if_pos he]; exact ⟨_, rfl⟩
  · rw [if_neg he, h]; exact ⟨_, rfl⟩

/-! ### Registry lemmas -/

theorem Token_lookup_some (rlm : RatelimitTokenMap) (k : String) (t : RatelimitToken)
    (h : alookup k rlm.tokens = some t) : rlm.Token k = (t, rlm) := by
  unfold RatelimitTokenMap.Token
  rw [h]

theorem Token_lookup_none (rlm : RatelimitTokenMap) (k : String)
    (h : alookup k rlm.tokens = none) :
    rlm.Token k = ((NewRatelimitToken k).SetLogger rlm.logger,
      { rlm with tokens := aupdate k ((NewRatelimitToken k).SetLogger rlm.logger) rlm.tokens }) := by
  unfold RatelimitTokenMap.Token
  rw [h]

theorem Token_idem (rlm : RatelimitTokenMap) (k : String) :
    (rlm.Token k).2.Token k = ((rlm.Token k).1, (rlm.Token k).2) := by
  cases h : alookup k rlm.tokens with
  | some t =>
    rw [Token_lookup_some rlm k t h]
    exact Token_lookup_some rlm k t h
  | none =>
    rw [Token_lookup_none rlm k h]
    exact Token_lookup_some _ k _ (alookup_aupdate_self k _ rlm.tokens)

theorem Token_logger_some (rlm : RatelimitTokenMap) (k : String)
    (hl : rlm.logger = some ())
    (hall : ∀ kv ∈ rlm.tokens, kv.2.logger = some ()) :
    ((rlm.Token k).1).logger = some () := by
  cases h : alookup k rlm.tokens with
  | some t =>
    rw [Token_lookup_some rlm k t h]
    exact hall (k, t) (alookup_mem k t rlm.tokens h)
  | none =>
    rw [Token_lookup_none rlm k h]
    simp [RatelimitToken.SetLogger, hl]

/-! ### Effective-limit lemmas -/

theorem effectiveLimit_parse (rsw : RatelimitSlidingWindow) (dom v : String) (n : Int)
    (hget : rsw.domainList.Get dom = some v) (hatoi : Atoi v = some n) :
    rsw.effectiveLimit dom = some n := by
  simp [RatelimitSlidingWindow.effectiveLimit, RatelimitSlidingWindow.checkDomain,
    RatelimitSlidingWindow.getDomainLimit, hget, hatoi]

theorem effectiveLimit_parsefail (rsw : RatelimitSlidingWindow) (dom v : String)
    (hlog : rsw.logger = some ())
    (hget : rsw.domainList.Get dom = some v) (hatoi : Atoi v = none) :
    rsw.effectiveLimit dom = some 0 := by
  simp [RatelimitSlidingWindow.effectiveLimit, RatelimitSlidingWindow.checkDomain,
    RatelimitSlidingWindow.getDomainLimit, hget, hatoi, hlog]

theorem effectiveLimit_absent (rsw : RatelimitSlidingWindow) (dom : String)
    (hget : rsw.domainList.Get dom = none) :
    rsw.effectiveLimit dom = some rsw.defaultLimit := by
  simp [RatelimitSlidingWindow.effectiveLimit, RatelimitSlidingWindow.checkDomain, hget]

theorem effectiveLimit_isSome (rsw : RatelimitSlidingWindow) (dom : String)
    (hlog : rsw.logger = some ()) : ∃ L, rsw.effectiveLimit dom = some L := by
  cases hget : rsw.domainList.Get dom with
  | none => exact ⟨_, effectiveLimit_absent rsw dom hget⟩
  | some v =>
    cases hatoi : Atoi v with
    | none => exact ⟨0, effectiveLimit_parsefail rsw dom v hlog hget hatoi⟩
    | some n => exact ⟨n, effectiveLimit_parse rsw dom v n hget hatoi⟩

/-! ### RateLimit branch lemmas -/

theorem rateLimit_whitelisted (rsw : RatelimitSlidingWindow) (now : Int)
    (sender : String) (recips : Int)
    (hlog : rsw.logger = some ())
    (hwl : rsw.checkWhiteList sender = true ∨ rsw.checkWhiteList (domainOf sender) = true) :
    rsw.RateLimit now sender recips = some ("action=dunno\n\n", rsw.tokens) := by
  unfold RatelimitSlidingWindow.RateLimit
  rcases hwl with h | h
  · by_cases hr : recips = 0 <;> simp [hr, hlog, h]
  · by_cases hr : recips = 0 <;> by_cases hs : rsw.checkWhiteList sender <;>
      simp [hr, hlog, h, hs]

theorem rateLimit_defer (rsw : RatelimitSlidingWindow) (now : Int)
    (sender : String) (recips L : Int) (token : RatelimitToken)
    (tm1 : RatelimitTokenMap) (pruned : RatelimitToken)
    (hlog : rsw.logger = some ())
    (hs : rsw.checkWhiteList sender = false)
    (hd : rsw.checkWhiteList (domainOf sender) = false)
    (hL : rsw.effectiveLimit (domainOf sender) = some L)
    (hT : rsw.tokens.Token sender = (token, tm1))
    (hP : token.Prune (now + rsw.interval) = some pruned)
    (hgt : L < pruned.count + (if recips = 0 then 1 else recips)) :
    rsw.RateLimit now sender recips
      = some ("action=defer_if_permit " ++ rsw.deferMessage ++ "\n\n",
              { tm1 with tokens := aupdate sender pruned tm1.tokens }) := by
  by_cases hr : recips = 0
  · rw [if_pos hr] at hgt
    simp only [RatelimitSlidingWindow.RateLimit, hr, if_true, hlog, Option.some_bind,
      hs, hd, Bool.false_eq_true, if_false, hL, hT, hP, RatelimitToken.Count]
    rw [if_pos hgt]
  · rw [if_neg hr] at hgt
    simp only [RatelimitSlidingWindow.RateLimit, hr, if_false, Option.some_bind,
      hs, hd, Bool.false_eq_true, hL, hT, hP, RatelimitToken.Count, hlog]
    rw [if_pos hgt]

theorem rateLimit_permit (rsw : RatelimitSlidingWindow) (now : Int)
    (sender : String) (recips L : Int) (token : RatelimitToken)
    (tm1 : RatelimitTokenMap) (pruned recorded : RatelimitToken)
    (hlog : rsw.logger = some ())
    (hs : rsw.checkWhiteList sender = false)
    (hd : rsw.checkWhiteList (domainOf sender) = false)
    (hL : rsw.effectiveLimit (domainOf sender) = some L)
    (hT : rsw.tokens.Token sender = (token, tm1))
    (hP : token.Prune (now + rsw.interval) = some pruned)
    (hle : pruned.count + (if recips = 0 then 1 else recips) ≤ L)
    (hR : pruned.RecordMessage now (if recips = 0 then 1 else recips) = some recorded) :
    rsw.RateLimit now sender recips
      = some ("action=dunno\n\n",
              { tm1 with tokens := aupdate sender recorded tm1.tokens }) := by
  by_cases hr : recips = 0
  · rw [if_pos hr] at hle hR
    simp only [RatelimitSlidingWindow.RateLimit, hr, if_true, hlog, Option.some_bind,
      hs, hd, Bool.false_eq_true, if_false, hL, hT, hP, RatelimitToken.Count]
    rw [if_neg (not_lt.mpr hle), hR, Option.some_bind, aupdate_aupdate]
  · rw [if_neg hr] at hle hR
    simp only [RatelimitSlidingWindow.RateLimit, hr, if_false, Option.some_bind,
      hs, hd, Bool.false_eq_true, hL, hT, hP, RatelimitToken.Count, hlog]
    rw [if_neg (not_lt.mpr hle), hR, Option.some_bind, aupdate_aupdate]

/-! ### Sequences of recordMessage calls -/

theorem recordAll_spec (msgs : List (Int × Int)) :
    ∀ t : RatelimitToken, t.logger = some () →
    ∃ t', recordAll t msgs = some t' ∧ t'.key = t.key ∧ t'.logger = some () ∧
      t'.count = t.count + (msgs.map fun m => m.2).sum ∧
      ∀ p : Int → Bool, sumFilter p t'.tsd =
        sumFilter p t.tsd + ((msgs.filter fun m => p (truncMinute m.1)).map fun m => m.2).sum := by
  induction msgs with
  | nil =>
    intro t h
    exact ⟨t, rfl, rfl, h, by simp, fun p => by simp⟩
  | cons m rest ih =>
    intro t h
    obtain ⟨t1, hR⟩ := RecordMessage_some t m.1 m.2 h
    obtain ⟨hk, hl, hc, hs⟩ := RecordMessage_spec t t1 m.1 m.2 hR
    have hl1 : t1.logger = some () := hl.trans h
    obtain ⟨t', hAll, hk', hl', hc', hs'⟩ := ih t1 hl1
    refine ⟨t', ?_, hk'.trans hk, hl', ?_, ?_⟩
    · simp [recordAll, hR, hAll]
    · rw [hc', hc]
      simp only [List.map_cons, List.sum_cons]
      omega
    · intro p
      rw [hs' p, hs p]
      by_cases hm : p (truncMinute m.1) <;> simp [List.filter_cons, hm] <;> omega

/-! ### The token invariant -/

theorem sumFilter_true (l : List (Int × Int)) :
    sumFilter (fun _ => true) l = sumVals l := by
  unfold sumFilter sumVals
  rw [List.filter_true]

theorem TokenInv_new (k : String) : TokenInv (NewRatelimitToken k) := rfl

theorem TokenInv_record (t t' : RatelimitToken) (ts r : Int)
    (hinv : TokenInv t) (h : t.RecordMessage ts r = some t') : TokenInv t' := by
  obtain ⟨-, -, hc, hs⟩ := RecordMessage_spec t t' ts r h
  have := hs (fun _ => true)
  rw [sumFilter_true, sumFilter_true] at this
  unfold TokenInv at hinv ⊢
  rw [hc, this, hinv]
  simp

theorem TokenInv_prune (t t' : RatelimitToken) (lim : Int)
    (hinv : TokenInv t) (h : t.Prune lim = some t') : TokenInv t' := by
  obtain ⟨-, -, htsd, hc⟩ := Prune_spec t t' lim h
  have hsplit := sumFilter_add_not (fun a => decide (a < lim)) t.tsd
  have hvals : sumVals t'.tsd = sumFilter (fun a => ! decide (a < lim)) t.tsd := by
    rw [htsd]
    rfl
  unfold TokenInv at hinv ⊢
  rw [hc, hvals, hinv]
  omega

/-! ### Totality under a set logger -/

theorem setInterval_isSome (rsw : RatelimitSlidingWindow) (i : String)
    (hlog : rsw.logger = some ()) : (rsw.SetInterval i).isSome := by
  unfold RatelimitSlidingWindow.SetInterval
  cases h : ParseDuration (i ++ "s") <;> simp [h, hlog]

theorem rateLimit_zero_one_aux (rsw : RatelimitSlidingWindow) (now : Int) (sender : String)
    (hlog : rsw.logger = some ()) :
    rsw.RateLimit now sender 0 = rsw.RateLimit now sender 1 := by
  unfold RatelimitSlidingWindow.RateLimit
  simp [hlog]

theorem rateLimit_isSome (rsw : RatelimitSlidingWindow) (now : Int)
    (sender : String) (recips : Int)
    (hlog : rsw.logger = some ()) (hmap : rsw.tokens.logger = some ())
    (hall : ∀ kv ∈ rsw.tokens.tokens, kv.2.logger = some ()) :
    (rsw.RateLimit now sender recips).isSome := by
  by_cases hs : rsw.checkWhiteList sender
  · rw [rateLimit_whitelisted rsw now sender recips hlog (Or.inl hs)]
    rfl
  · by_cases hd : rsw.checkWhiteList (domainOf sender)
    · rw [rateLimit_whitelisted rsw now sender recips hlog (Or.inr hd)]
      rfl
    · obtain ⟨L, hL⟩ := effectiveLimit_isSome rsw (domainOf sender) hlog
      obtain ⟨token, tm1, hT⟩ : ∃ a b, rsw.tokens.Token sender = (a, b) := ⟨_, _, rfl⟩
      have htl : token.logger = some () := by
        have h2 := Token_logger_some rsw.tokens sender hmap hall
        rw [hT] at h2
        exact h2
      obtain ⟨pruned, hP⟩ := Prune_some token (now + rsw.interval) htl
      have hpl : pruned.logger = some () := by
        have h2 := (Prune_spec token pruned _ hP).2.1
        rw [h2, htl]
      have hs' : rsw.checkWhiteList sender = false := Bool.eq_false_iff.mpr hs
      have hd' : rsw.checkWhiteList (domainOf sender) = false := Bool.eq_false_iff.mpr hd
      by_cases hgt : L < pruned.count + (if recips = 0 then 1 else recips)
      · rw [rateLimit_defer rsw now sender recips L token tm1 pruned hlog hs' hd' hL hT hP hgt]
        rfl
      · obtain ⟨recorded, hR⟩ := RecordMessage_some pruned now _ hpl
        rw [rateLimit_permit rsw now sender recips L token tm1 pruned recorded hlog hs' hd'
          hL hT hP (not_lt.mp hgt) hR]
        rfl

theorem sum_split_lt (msgs : List (Int × Int)) (cutoff : Int) :
    ((msgs.filter fun m => decide (truncMinute m.1 < cutoff)).map fun m => m.2).sum
      + ((msgs.filter fun m => decide (cutoff ≤ truncMinute m.1)).map fun m => m.2).sum
      = (msgs.map fun m => m.2).sum := by
  induction msgs with
  | nil => rfl
  | cons m rest ih =>
    by_cases hm : truncMinute m.1 < cutoff
    · have h1 : decide (truncMinute m.1 < cutoff) = true := decide_eq_true hm
      have h2 : decide (cutoff ≤ truncMinute m.1) = false := decide_eq_false (not_le.mpr hm)
      simp [List.filter_cons, h1, h2]
      omega
    · have h1 : decide (truncMinute m.1 < cutoff) = false := decide_eq_false hm
      have h2 : decide (cutoff ≤ truncMinute m.1) = true := decide_eq_true (not_lt.mp hm)
      simp [List.filter_cons, h1, h2]
      omega

/-! ### Claims -/

/-- C2: for every finite sequence of `recordMessage(ts, recips)` calls on
a fresh token followed by one `prune(cutoff)`, the pruned token's buckets
are exactly those at or after the cutoff, and `count()` equals the sum of
the `recips` arguments of exactly those calls whose minute-truncated
timestamp is `≥ cutoff`. -/
theorem claim_C2_prune_count (k : String) (msgs : List (Int × Int)) (cutoff : Int) :
    ∃ t t', recordAll ((NewRatelimitToken k).SetLogger (some ())) msgs = some t ∧
      t.Prune cutoff = some t' ∧
      t'.tsd = t.tsd.filter (fun b => ! decide (b.1 < cutoff)) ∧
      t'.count = ((msgs.filter fun m => decide (cutoff ≤ truncMinute m.1)).map fun m => m.2).sum := by
  obtain ⟨t, hAll, hk, hl, hc, hs⟩ :=
    recordAll_spec msgs ((NewRatelimitToken k).SetLogger (some ())) rfl
  obtain ⟨t', hP⟩ := Prune_some t cutoff hl
  obtain ⟨-, -, htsd, hcount⟩ := Prune_spec t t' cutoff hP
  refine ⟨t, t', hAll, hP, htsd, ?_⟩
  have hc2 : t.count = 0 + (msgs.map fun m => m.2).sum := hc
  have hs2 : sumFilter (fun a => decide (a < cutoff)) t.tsd
      = 0 + ((msgs.filter fun m => decide (truncMinute m.1 < cutoff)).map fun m => m.2).sum :=
    hs (fun a => decide (a < cutoff))
  have hsplit := sum_split_lt msgs cutoff
  omega

/-- C3: the invariant `total = sum of all bucket values` holds for a
fresh token and is preserved by every `recordMessage` and every `prune`,
so it holds in every reachable token state. -/
theorem claim_C3_token_invariant :
    (∀ k : String, TokenInv (NewRatelimitToken k)) ∧
    (∀ (t t' : RatelimitToken) (ts r : Int),
       TokenInv t → t.RecordMessage ts r = some t' → TokenInv t') ∧
    (∀ (t t' : RatelimitToken) (lim : Int),
       TokenInv t → t.Prune lim = some t' → TokenInv t') :=
  ⟨TokenInv_new,
   fun t t' ts r hinv h => TokenInv_record t t' ts r hinv h,
   fun t t' lim hinv h => TokenInv_prune t t' lim hinv h⟩

/-- C3 witness: the invariant theorem applied to a concrete recording on
a concrete token satisfying the invariant. -/
theorem claim_C3_witness : TokenInv tokS1 ∧ TokenInv tokA50 := by
  constructor
  · exact claim_C3_token_invariant.2.1 tokS0 tokS1 0 1 (by rfl) (by decide)
  · exact claim_C3_token_invariant.2.2 tokA50 tokA50 (-60000000000) (by rfl) (by decide)

/-- C5: a sender present in the whitelist, or whose domain is present in
the whitelist, is always permitted (`"action=dunno\n\n"`) and the token
registry is returned untouched: no token is fetched, created or modified. -/
theorem claim_C5_whitelist_permit (rsw : RatelimitSlidingWindow) (now : Int)
    (sender : String) (recips : Int)
    (hlog : rsw.logger = some ())
    (hwl : (rsw.whiteList.Get sender).isSome = true ∨
           (rsw.whiteList.Get (domainOf sender)).isSome = true) :
    rsw.RateLimit now sender recips = some ("action=dunno\n\n", rsw.tokens) :=
  rateLimit_whitelisted rsw now sender recips hlog hwl

/-- C5 witness: a whitelisted sender with `recipientCount = 0` is
permitted and the registry is unchanged. -/
theorem claim_C5_witness :
    rswWL.RateLimit 5 "a@x.com" 0 = some ("action=dunno\n\n", rswWL.tokens) :=
  claim_C5_whitelist_permit rswWL 5 "a@x.com" 0 (by decide) (Or.inl (by decide))

/-- C6: for every sender, a `RateLimit` call with `recipientCount = 0` is
indistinguishable from one with `recipientCount = 1`: the zero is
normalized to one before the quota check. -/
theorem claim_C6_zero_normalized (rsw : RatelimitSlidingWindow) (now : Int)
    (sender : String) (hlog : rsw.logger = some ()) :
    rsw.RateLimit now sender 0 = rsw.RateLimit now sender 1 :=
  rateLimit_zero_one_aux rsw now sender hlog

/-- C6 witness: a fresh sender sending a zero-recipient message is
permitted and consumes exactly one unit of quota. -/
theorem claim_C6_witness :
    rswBase.RateLimit 0 "s@d.com" 0 = rswBase.RateLimit 0 "s@d.com" 1 ∧
    rswBase.RateLimit 0 "s@d.com" 0 = some ("action=dunno\n\n", tmS1) ∧
    (alookup "s@d.com" tmS1.tokens).map RatelimitToken.Count = some 1 := by
  have h := claim_C6_zero_normalized rswBase 0 "s@d.com" (by decide)
  exact ⟨h, h.trans (by decide), by decide⟩

/-- C9: the registry's get-or-create (`Token`) returns the existing token
for a key without modifying the registry, registers a fresh token (with
the registry's logger) when the key is absent, and is idempotent: an
immediately repeated call returns the same token and the same registry,
so at most one token exists per key and it is never overwritten. -/
theorem claim_C9_get_or_create :
    (∀ (rlm : RatelimitTokenMap) (k : String) (t : RatelimitToken),
       alookup k rlm.tokens = some t → rlm.Token k = (t, rlm)) ∧
    (∀ (rlm : RatelimitTokenMap) (k : String),
       alookup k rlm.tokens = none →
       rlm.Token k = ((NewRatelimitToken k).SetLogger rlm.logger,
         { rlm with tokens := aupdate k ((NewRatelimitToken k).SetLogger rlm.logger) rlm.tokens })) ∧
    (∀ (rlm : RatelimitTokenMap) (k : String),
       (rlm.Token k).2.Token k = ((rlm.Token k).1, (rlm.Token k).2)) :=
  ⟨Token_lookup_some, Token_lookup_none, Token_idem⟩

/-- C9 witness: looking up a registered key returns the registered token
and leaves the registry unchanged. -/
theorem claim_C9_witness : tmA50.Token "a@x.com" = (tokA50, tmA50) :=
  claim_C9_get_or_create.1 tmA50 "a@x.com" tokA50 (by decide)

/-- C1: whenever the projected count (the pruned token's count plus the
normalized recipient count) strictly exceeds the effective limit,
`RateLimit` returns exactly `"action=defer_if_permit " ++ deferMessage ++
"\n\n"` and the sender's token in the returned registry is exactly the
pruned token — nothing is recorded, so rejected traffic consumes no
quota. -/
theorem claim_C1_defer_no_record (rsw : RatelimitSlidingWindow) (now : Int)
    (sender : String) (recips L : Int) (token : RatelimitToken)
    (tm1 : RatelimitTokenMap) (pruned : RatelimitToken)
    (hlog : rsw.logger = some ())
    (hs : rsw.checkWhiteList sender = false)
    (hd : rsw.checkWhiteList (domainOf sender) = false)
    (hL : rsw.effectiveLimit (domainOf sender) = some L)
    (hT : rsw.tokens.Token sender = (token, tm1))
    (hP : token.Prune (now + rsw.interval) = some pruned)
    (hgt : L < pruned.count + (if recips = 0 then 1 else recips)) :
    rsw.RateLimit now sender recips
      = some ("action=defer_if_permit " ++ rsw.deferMessage ++ "\n\n",
              { tm1 with tokens := aupdate sender pruned tm1.tokens }) :=
  rateLimit_defer rsw now sender recips L token tm1 pruned hlog hs hd hL hT hP hgt

/-- C1 witness: with `defaultLimit = 120` and a fresh `a@x.com`, a call
with 50 recipients permits and sets the count to 50; an immediate second
call with 80 recipients defers (50 + 80 > 120) and the count stays 50. -/
theorem claim_C1_witness :
    rswBase.RateLimit 0 "a@x.com" 50 = some ("action=dunno\n\n", tmA50) ∧
    ({ rswBase with tokens := tmA50 }).RateLimit 0 "a@x.com" 80
      = some ("action=defer_if_permit \n\n", tmA50) ∧
    (alookup "a@x.com" tmA50.tokens).map RatelimitToken.Count = some 50 := by
  refine ⟨by decide, ?_, by decide⟩
  have h := claim_C1_defer_no_record { rswBase with tokens := tmA50 } 0 "a@x.com" 80 120
    tokA50 tmA50 tokA50 (by decide) (by decide) (by decide) (by decide) (by decide)
    (by decide) (by decide)
  exact h.trans (by decide)

/-- C4 counterexample: for the sender `a@b@c` (two `@`s) the code's
domain is `"b"`, the second field of the split, not the entire substring
`"b@c"` after the first `@`; with `b@c` whitelisted and a zero default
limit the code defers where the claimed rule would have whitelisted the
domain and permitted. -/
theorem claim_C4_counterexample :
    specDomain "a@b@c" = "b@c" ∧
    domainOf "a@b@c" = "b" ∧
    domainOf "a@b@c" ≠ specDomain "a@b@c" ∧
    rswC4.checkWhiteList (specDomain "a@b@c") = true ∧
    (rswC4.RateLimit 0 "a@b@c" 1).map Prod.fst
      = some ("action=defer_if_permit \n\n") := by
  refine ⟨by decide, by decide, by decide, by decide, by decide⟩

/-- C4 (amended): the domain `RateLimit` derives is the second field of
splitting the sender on `@` — the substring after the first `@` and
before the second `@` when more than one is present — and the empty
string when the sender has no `@`; this `domainOf sender` is the key used
for the whitelist-domain lookup and for the domain-override lookup. -/
theorem claim_C4_amended_domain :
    (∀ s : String, domainOf s = amendedDomain s) ∧
    (∀ (rsw : RatelimitSlidingWindow) (now : Int) (sender : String) (recips : Int),
       rsw.logger = some () →
       rsw.checkWhiteList sender = false →
       (rsw.whiteList.Get (domainOf sender)).isSome = true →
       rsw.RateLimit now sender recips = some ("action=dunno\n\n", rsw.tokens)) ∧
    (∀ (rsw : RatelimitSlidingWindow) (now : Int) (sender : String)
       (recips n : Int) (v : String) (token : RatelimitToken)
       (tm1 : RatelimitTokenMap) (pruned : RatelimitToken),
       rsw.logger = some () →
       rsw.checkWhiteList sender = false →
       rsw.checkWhiteList (domainOf sender) = false →
       rsw.domainList.Get (domainOf sender) = some v →
       Atoi v = some n →
       rsw.tokens.Token sender = (token, tm1) →
       token.Prune (now + rsw.interval) = some pruned →
       n < pruned.count + (if recips = 0 then 1 else recips) →
       rsw.RateLimit now sender recips
         = some ("action=defer_if_permit " ++ rsw.deferMessage ++ "\n\n",
                 { tm1 with tokens := aupdate sender pruned tm1.tokens })) := by
  refine ⟨?_, ?_, ?_⟩
  · intro s
    unfold domainOf amendedDomain
    rcases h : splitList '@' s.toList with _ | ⟨a, _ | ⟨d, rest⟩⟩ <;> simp [h]
  · intro rsw now sender recips hlog hs hdw
    exact rateLimit_whitelisted rsw now sender recips hlog (Or.inr hdw)
  · intro rsw now sender recips n v token tm1 pruned hlog hs hd hget hatoi hT hP hgt
    exact rateLimit_defer rsw now sender recips n token tm1 pruned hlog hs hd
      (effectiveLimit_parse rsw (domainOf sender) v n hget hatoi) hT hP hgt

/-- C4 witness: the amended theorem applied to a sender with a
whitelisted domain and to a sender whose domain override is exceeded. -/
theorem claim_C4_witness :
    domainOf "a@b@c" = amendedDomain "a@b@c" ∧
    rswWLD.RateLimit 3 "u@x.com" 7 = some ("action=dunno\n\n", rswWLD.tokens) := by
  constructor
  · exact claim_C4_amended_domain.1 "a@b@c"
  · exact claim_C4_amended_domain.2.1 rswWLD 3 "u@x.com" 7 (by decide) (by decide) (by decide)

/-- C7 counterexample: with the override `biz.com → "x5"` whose value
does not parse (effective limit 0), a request for that domain with
`recipientCount = -1` is nevertheless permitted (`"action=dunno\n\n"`):
the negative count bypasses the zero-normalization, the projected count
is `0 + (-1) ≤ 0`, and the message is recorded — so the claim that every
request for such a domain is deferred is false as stated. -/
theorem claim_C7_counterexample :
    rswBiz.domainList.Get (domainOf "u@biz.com") = some "x5" ∧
    Atoi "x5" = none ∧
    (rswBiz.RateLimit 0 "u@biz.com" (-1)).map Prod.fst = some ("action=dunno\n\n") := by
  refine ⟨by decide, by decide, by decide⟩

/-- C7 (amended): a domain present in the override map with a parseable
value gets that value as its effective limit; an unparseable value yields
effective limit 0 (fail-closed), so every request for that domain with a
nonnegative recipient count and a nonnegative pruned token count is
deferred (a negative recipient count can still be permitted, per C10's
passthrough); an absent domain falls back to `defaultLimit`. The parse
failure is absorbed — the caller still receives a decision string. -/
theorem claim_C7_effective_limit :
    (∀ (rsw : RatelimitSlidingWindow) (dom v : String) (n : Int),
       rsw.domainList.Get dom = some v → Atoi v = some n →
       rsw.effectiveLimit dom = some n) ∧
    (∀ (rsw : RatelimitSlidingWindow) (dom v : String),
       rsw.logger = some () → rsw.domainList.Get dom = some v → Atoi v = none →
       rsw.effectiveLimit dom = some 0) ∧
    (∀ (rsw : RatelimitSlidingWindow) (dom : String),
       rsw.domainList.Get dom = none →
       rsw.effectiveLimit dom = some rsw.defaultLimit) ∧
    (∀ (rsw : RatelimitSlidingWindow) (now : Int) (sender v : String)
       (recips : Int) (token : RatelimitToken) (tm1 : RatelimitTokenMap)
       (pruned : RatelimitToken),
       rsw.logger = some () →
       rsw.checkWhiteList sender = false →
       rsw.checkWhiteList (domainOf sender) = false →
       rsw.domainList.Get (domainOf sender) = some v →
       Atoi v = none →
       rsw.tokens.Token sender = (token, tm1) →
       token.Prune (now + rsw.interval) = some pruned →
       0 ≤ pruned.count → 0 ≤ recips →
       rsw.RateLimit now sender recips
         = some ("action=defer_if_permit " ++ rsw.deferMessage ++ "\n\n",
                 { tm1 with tokens := aupdate sender pruned tm1.tokens })) := by
  refine ⟨effectiveLimit_parse, effectiveLimit_parsefail, effectiveLimit_absent, ?_⟩
  intro rsw now sender v recips token tm1 pruned hlog hs hd hget hatoi hT hP hc0 hr0
  have hgt : (0 : Int) < pruned.count + (if recips = 0 then 1 else recips) := by
    by_cases h0 : recips = 0
    · rw [if_pos h0]; omega
    · rw [if_neg h0]; omega
  exact rateLimit_defer rsw now sender recips 0 token tm1 pruned hlog hs hd
    (effectiveLimit_parsefail rsw (domainOf sender) v hlog hget hatoi) hT hP hgt

/-- C7 witness: with override `biz.com → "x5"` (unparseable), a fresh
sender `u@biz.com` with 6 recipients is deferred. -/
theorem claim_C7_witness :
    Atoi "x5" = none ∧
    rswBiz.RateLimit 0 "u@biz.com" 6 = some ("action=defer_if_permit \n\n", tmBiz) := by
  refine ⟨by decide, ?_⟩
  have h := claim_C7_effective_limit.2.2.2 rswBiz 0 "u@biz.com" "x5" 6 tokBiz0 tmBiz tokBiz0
    (by decide) (by decide) (by decide) (by decide) (by decide) (by decide) (by decide)
    (by decide) (by decide)
  exact h.trans (by decide)

/-- C8 counterexample: on a controller built by the constructor on which
`SetLogger` was never called, `RateLimit` dereferences the nil logger —
modelled as the `none` result — instead of completing with a decision
string, so the claim that no input can make a core operation abort is
false as stated. -/
theorem claim_C8_counterexample :
    (NewRatelimitSlidingWindow mmEmpty mmEmpty NewRatelimitTokenMap).RateLimit 0 "a@b" 1
      = none := by decide

/-- C8 (amended): provided the controller's, the registry's and every
registered token's logger have been set, `RateLimit` always completes
with a value for every sender and recipient count, and `SetInterval`
completes for every input string (the remaining setters are total
functions by construction). -/
theorem claim_C8_amended_total :
    (∀ (rsw : RatelimitSlidingWindow) (now : Int) (sender : String) (recips : Int),
       rsw.logger = some () → rsw.tokens.logger = some () →
       (∀ kv ∈ rsw.tokens.tokens, kv.2.logger = some ()) →
       (rsw.RateLimit now sender recips).isSome = true) ∧
    (∀ (rsw : RatelimitSlidingWindow) (i : String),
       rsw.logger = some () → (rsw.SetInterval i).isSome = true) :=
  ⟨fun rsw now sender recips hl hm ha => rateLimit_isSome rsw now sender recips hl hm ha,
   fun rsw i hl => setInterval_isSome rsw i hl⟩

/-- C8 witness: the totality theorem applied to a configured controller,
an arbitrary request and an unparseable interval string. -/
theorem claim_C8_witness :
    (rswBase.RateLimit 1 "w@q" 2).isSome = true ∧
    (rswBase.SetInterval "bad").isSome = true := by
  have hnil : rswBase.tokens.tokens = [] := by decide
  constructor
  · refine claim_C8_amended_total.1 rswBase 1 "w@q" 2 (by decide) (by decide) ?_
    intro kv hkv
    rw [hnil] at hkv
    exact absurd hkv (List.not_mem_nil kv)
  · exact claim_C8_amended_total.2 rswBase "bad" (by decide)

/-- C10: a strictly negative recipient count passes through the
normalization untouched (only 0 becomes 1), so the request is permitted
whenever `pruned count + recips ≤ limit`, and the recorded token's count
is the pruned count plus the negative value — the count decreases and can
go negative. -/
theorem claim_C10_negative_recips (rsw : RatelimitSlidingWindow) (now : Int)
    (sender : String) (recips L : Int) (token : RatelimitToken)
    (tm1 : RatelimitTokenMap) (pruned recorded : RatelimitToken)
    (hneg : recips < 0)
    (hlog : rsw.logger = some ())
    (hs : rsw.checkWhiteList sender = false)
    (hd : rsw.checkWhiteList (domainOf sender) = false)
    (hL : rsw.effectiveLimit (domainOf sender) = some L)
    (hT : rsw.tokens.Token sender = (token, tm1))
    (hP : token.Prune (now + rsw.interval) = some pruned)
    (hle : pruned.count + recips ≤ L)
    (hR : pruned.RecordMessage now recips = some recorded) :
    rsw.RateLimit now sender recips
      = some ("action=dunno\n\n", { tm1 with tokens := aupdate sender recorded tm1.tokens }) ∧
    recorded.count = pruned.count + recips ∧
    recorded.count < pruned.count := by
  have hne : recips ≠ 0 := by omega
  have hite : (if recips = 0 then 1 else recips) = recips := if_neg hne
  have hc := (RecordMessage_spec pruned recorded now recips hR).2.2.1
  refine ⟨?_, hc, by omega⟩
  exact rateLimit_permit rsw now sender recips L token tm1 pruned recorded hlog hs hd hL hT hP
    (by rw [hite]; exact hle) (by rw [hite]; exact hR)

/-- C10 witness: a fresh sender with `recipientCount = -5` is permitted
and its token's count becomes -5, which is negative. -/
theorem claim_C10_witness :
    (-5 : Int) < 0 ∧
    rswBase.RateLimit 0 "n@d.com" (-5) = some ("action=dunno\n\n", tmN5) ∧
    tokN5.count < 0 := by
  have h := claim_C10_negative_recips rswBase 0 "n@d.com" (-5) 120 tokN0 tmN0 tokN0 tokN5
    (by decide) (by decide) (by decide) (by decide) (by decide) (by decide) (by decide)
    (by decide) (by decide)
  exact ⟨by decide, h.1.trans (by decide), by decide⟩

end Postfix
